import Mathlib

/-!
Verification of the vite-angular build plugins.

This file embeds the Angular/Vite adapter code of the repository
(`builder.base.js` / `builder.base.ts`, `builderPlugins`, `plugins.ts`,
`plugins.mjs`, `plugins/builder.js`) as executable Lean definitions and
proves properties of them.  External framework calls (the Angular
compiler, the TypeScript host, Babel, the filesystem) are modelled as
oracle parameters; everything the repository itself computes is
translated faithfully.
-/

namespace ViteAngular

/-- JavaScript truthiness of a `string | undefined` value:
`undefined` and the empty string are falsy. -/
def jsTruthy : Option String → Bool
  | none => false
  | some s => !(s == "")

/-- Boolean prefix test on character lists (recursing on the pattern, so
that `pfx pat l` reduces whenever `pat` and the head of `l` are concrete,
even when the tail of `l` is not). -/
def pfx : List Char → List Char → Bool
  | [], _ => true
  | a :: as, l =>
    match l with
    | [] => false
    | b :: bs => a == b && pfx as bs

/-- Does `sub` occur as a contiguous run somewhere in `l`?  (Substring
containment on character lists; used to model JS `String.prototype.includes`
and `String.prototype.match` against literal patterns.) -/
def hasSub : List Char → List Char → Bool
  | l, sub =>
    pfx sub l ||
      (match l with
       | [] => false
       | _ :: t => hasSub t sub)

/-- JS `String.prototype.includes`. -/
def jsIncludes (s sub : String) : Bool :=
  hasSub s.toList sub.toList

/-- JS `String.prototype.endsWith`. -/
def jsEndsWith (s suffix : String) : Bool :=
  suffix.toList.isSuffixOf s.toList

/-- The build environments of `builder.base.ts` (`"dev" | "production" | "test"`). -/
inductive Environment where
  | dev
  | production
  | test
deriving DecidableEq, Repr

/-- The two plugin application stages of `builder.base.ts`
(`"read" | "post-transform"`). -/
inductive Stage where
  | read
  | postTransform
deriving DecidableEq, Repr

/-- A builder plugin as consumed by `AngularBuilder` (`builder.base.js`):
a name, the environment it applies to, the stage it runs at, and its
transform callback `transform(fileId, code)`.  A JS value of type
`string | undefined` is modelled as `Option String`. -/
structure BuilderPlugin where
  name : String
  apply : Environment
  stage : Stage
  transform : String → Option String → Option String

/-- The plugin mapping held by `AngularBuilder`: ordered lists of plugins
keyed by build environment and stage. -/
def PluginMapping := Environment → Stage → List BuilderPlugin

/-- The initial mapping of the `AngularBuilder` constructor:
`{ dev: {read: [], "post-transform": []}, production: {...}, test: {...} }`. -/
def emptyMapping : PluginMapping := fun _ _ => []

/-- `mapping[e][s].push(p)` — append `p` to one slot of the mapping. -/
def pushAt (m : PluginMapping) (e : Environment) (s : Stage) (p : BuilderPlugin) :
    PluginMapping :=
  fun e' s' => if e' = e ∧ s' = s then m e' s' ++ [p] else m e' s'

/-- One iteration of the `plugins.forEach` loop in the `AngularBuilder`
constructor (`builder.base.js` lines 52–58):

```js
if (plugin.apply == this.env || (this.env == "test" && plugin.apply == this.testEnv)) {
  this.pluginMapping[plugin.apply][plugin.stage].push(plugin);
  if (plugin.apply == this.testEnv) this.pluginMapping["test"][plugin.stage].push(plugin);
  if (plugin.setup) plugin.setup(env);   // side effect only, no mapping change
}
``` -/
def addPlugin (env testEnv : Environment) (m : PluginMapping) (p : BuilderPlugin) :
    PluginMapping :=
  if p.apply = env ∨ (env = .test ∧ p.apply = testEnv) then
    let m1 := pushAt m p.apply p.stage p
    if p.apply = testEnv then pushAt m1 .test p.stage p else m1
  else m

/-- The plugin mapping built by the `AngularBuilder` constructor from the
input plugin list. -/
def buildPluginMapping (env testEnv : Environment) (plugins : List BuilderPlugin) :
    PluginMapping :=
  plugins.foldl (addPlugin env testEnv) emptyMapping

/-- Specification-side description of one plugin's contribution to slot
`(e, s)` of the mapping, taken from the words of the claim: an eligible
plugin (`p.apply == env`, or `env == "test"` and `p.apply == testEnv`) is
appended to `mapping[p.apply][p.stage]`, and additionally to
`mapping["test"][p.stage]` when `p.apply == testEnv`; an ineligible plugin
appears nowhere. -/
def mappingSpecContrib (env testEnv e : Environment) (s : Stage) (p : BuilderPlugin) :
    List BuilderPlugin :=
  if p.stage = s ∧ (p.apply = env ∨ (env = .test ∧ p.apply = testEnv)) then
    (if p.apply = e then [p] else []) ++
      (if p.apply = testEnv ∧ e = .test then [p] else [])
  else []

/-- Specification-side mapping: each plugin contributes in input-list order. -/
def pluginMappingSpec (env testEnv : Environment) (plugins : List BuilderPlugin)
    (e : Environment) (s : Stage) : List BuilderPlugin :=
  plugins.flatMap (mappingSpecContrib env testEnv e s)

/-- One constructor-loop iteration appends exactly the claimed contribution
to every slot of the mapping. -/
theorem addPlugin_apply (env testEnv e : Environment) (s : Stage)
    (m : PluginMapping) (p : BuilderPlugin) :
    addPlugin env testEnv m p e s = m e s ++ mappingSpecContrib env testEnv e s p := by
  unfold addPlugin mappingSpecContrib pushAt
  by_cases h1 : p.apply = env ∨ (env = .test ∧ p.apply = testEnv) <;>
    by_cases h2 : p.apply = testEnv <;>
      by_cases h3 : p.stage = s <;>
        by_cases h4 : e = p.apply <;>
          by_cases h5 : e = Environment.test <;>
            simp_all [eq_comm]

/-- The constructor's fold, started from any mapping, appends the
specification contributions slot-wise. -/
theorem foldl_addPlugin_spec (env testEnv : Environment)
    (plugins : List BuilderPlugin) (e : Environment) (s : Stage) :
    ∀ m : PluginMapping,
      (plugins.foldl (addPlugin env testEnv) m) e s
        = m e s ++ pluginMappingSpec env testEnv plugins e s := by
  induction plugins with
  | nil => intro m; simp [pluginMappingSpec]
  | cons p ps ih =>
    intro m
    simp only [List.foldl_cons, pluginMappingSpec, List.flatMap_cons]
    rw [ih, addPlugin_apply, List.append_assoc]
    rfl

/-- A TypeScript source file, reduced to the only field the builder code
reads (`sourceFile.text`). -/
structure SourceFile where
  text : String

/-- The TypeScript abstract builder created by `ts.createAbstractBuilder`
(external).  `getSourceFile` is its lookup; `emitData` lists, per file id,
the `data` arguments the compiler passes to the `writeFile` callback of
`builder.emit`. -/
structure TsBuilder where
  getSourceFile : String → Option SourceFile
  emitData : String → List (Option String)

/-- The TypeScript compiler host, reduced to the `readFile` member that
`setupCompilerHost` overrides. -/
structure TsHost where
  readFile : String → Option String

/-- The state of an `AngularBuilder` (`builder.base.js`).  External
handles (`compilerHost`, `currentAngularProgram`, `builder`) are modelled
by their presence, plus the behaviour `buildFile` consumes. -/
structure AngularBuilder where
  env : Environment
  testEnv : Environment
  tsConfigPath : String
  rootFiles : List String
  pluginMapping : PluginMapping
  tsHost : Option TsHost
  compilerHost : Option Unit
  currentAngularProgram : Option Unit
  builder : Option TsBuilder

/-- The plugin pipeline run by the overridden `tsHost.readFile`
(`builder.base.js` lines 71–79): each read-stage plugin of the current
environment is applied in order; a falsy output leaves the running value
unchanged (the plugin is skipped with a warning). -/
def applyReadPlugins (plugins : List BuilderPlugin) (name : String)
    (init : Option String) : Option String :=
  plugins.foldl
    (fun res plugin =>
      let output := plugin.transform name res
      if jsTruthy output then output else res)
    init

/-- The plugin pipeline run by `buildFile` on the emitted output
(`builder.base.js` lines 155–159): each post-transform-stage plugin of the
current environment is applied in order; a falsy result leaves the output
unchanged. -/
def applyPostPlugins (plugins : List BuilderPlugin) (fileId : String)
    (init : String) : String :=
  plugins.foldl
    (fun output plugin =>
      let result := plugin.transform fileId (some output)
      if jsTruthy result then result.getD output else output)
    init

/-- `AngularBuilder.setupCompilerHost`: creates the TypeScript host whose
`readFile` first performs the original read (`origRead`, external) and then
pipes the text through the read-stage plugins of the current environment,
and creates the Angular compiler host over it. -/
def AngularBuilder.setupCompilerHost (st : AngularBuilder)
    (origRead : String → Option String) : AngularBuilder :=
  { st with
    tsHost := some
      ⟨fun name => applyReadPlugins (st.pluginMapping st.env Stage.read) name (origRead name)⟩
    compilerHost := some () }

/-- The `AngularBuilder` constructor (`builder.base.js` lines 36–60): reads
the TS configuration (external; `parsedFiles` is the oracle for its
`rootNames`), stores the environments, builds the plugin mapping from the
input plugin list, and calls `setupCompilerHost`. -/
def mkAngularBuilder (env testEnv : Environment) (tsConfigPath : String)
    (plugins : List BuilderPlugin) (parsedFiles : List String)
    (origRead : String → Option String) : AngularBuilder :=
  AngularBuilder.setupCompilerHost
    { env := env
      testEnv := testEnv
      tsConfigPath := tsConfigPath
      rootFiles := parsedFiles
      pluginMapping := buildPluginMapping env testEnv plugins
      tsHost := none
      compilerHost := none
      currentAngularProgram := none
      builder := none }
    origRead

/-- `AngularBuilder.setupAngularProgram` (`builder.base.js` lines 88–109):
throws when the compiler host or the TypeScript host is missing, otherwise
creates the Angular program and the TypeScript abstract builder (both
external; `newBuilder` is the oracle for `ts.createAbstractBuilder`). -/
def AngularBuilder.setupAngularProgram (st : AngularBuilder)
    (newBuilder : TsBuilder) : Except String AngularBuilder :=
  if st.compilerHost.isNone then
    .error "The compiler host must be initialised before the Angular program is set up. Did you forget to call `builder.setupCompilerHost`?"
  else if st.tsHost.isNone then
    .error "The TypeScript host must be initialised before the Angular program is set up. Did you forget to call `builder.setupCompilerHost`?"
  else
    .ok { st with currentAngularProgram := some (), builder := some newBuilder }

/-- Observable outcome of `AngularBuilder.validateFiles`: the returned
value, the strings written with `console.warn`, and whether the Angular
compiler's `analyzeAsync` was invoked. -/
structure ValidateOutcome where
  returned : Option String
  logged : List String
  analyzed : Bool
deriving DecidableEq, Repr

/-- `AngularBuilder.validateFiles` (`builder.base.js` lines 117–129):
returns immediately when no Angular program exists; throws when the
TypeScript host is missing; otherwise analyses the program and formats its
diagnostics (`formatted` is the oracle for
`ts.formatDiagnosticsWithColorAndContext`), logging the result exactly when
it is a non-empty string. -/
def AngularBuilder.validateFiles (st : AngularBuilder) (formatted : String) :
    Except String ValidateOutcome :=
  match st.currentAngularProgram with
  | none => .ok ⟨none, [], false⟩
  | some _ =>
    match st.tsHost with
    | none =>
      .error "The TypeScript host must be initialised before the Angular program is set up. Did you forget to call `builder.setupCompilerHost`?"
    | some _ =>
      .ok ⟨some formatted, if formatted = "" then [] else [formatted], true⟩

/-- The TypeScript-file test `/\.[cm]?tsx?$/.test(fileId)`: the file id
ends in `.ts`, `.tsx`, `.cts`, `.ctsx`, `.mts` or `.mtsx`. -/
def isTsFile (fileId : String) : Bool :=
  jsEndsWith fileId ".ts" || jsEndsWith fileId ".tsx" ||
    jsEndsWith fileId ".cts" || jsEndsWith fileId ".ctsx" ||
      jsEndsWith fileId ".mts" || jsEndsWith fileId ".mtsx"

/-- The `output` accumulation of `buildFile`'s emit callback
(`(_filename, data) => { if (data) output = data; }`), starting from `""`. -/
def emitOutput (chunks : List (Option String)) : String :=
  chunks.foldl (fun output data => if jsTruthy data then data.getD output else output) ""

/-- The `MagicString` value returned by `buildFile`: built over the source
file's text, then `overwrite(0, length, output)` replaces its content. -/
structure MagicStr where
  original : String
  content : String
deriving DecidableEq, Repr

/-- `AngularBuilder.buildFile` (`builder.base.js` lines 135–162): calls
`prepareEmit` on the current Angular program (a TypeError when it is
undefined), returns no transform when the file id is not a TypeScript file
or the builder has no source file for it, and otherwise emits the file,
pipes the output through the post-transform plugins of the current
environment, and returns it as a `MagicString` over the source text. -/
def AngularBuilder.buildFile (st : AngularBuilder) (fileId : String) :
    Except String (Option MagicStr) :=
  match st.currentAngularProgram with
  | none => .error "TypeError: Cannot read properties of undefined (reading 'compiler')"
  | some _ =>
    if !isTsFile fileId then .ok none
    else
      match st.builder with
      | none => .ok none
      | some builder =>
        match builder.getSourceFile fileId with
        | none => .ok none
        | some sourceFile =>
          let output := emitOutput (builder.emitData fileId)
          let final := applyPostPlugins (st.pluginMapping st.env Stage.postTransform) fileId output
          .ok (some ⟨sourceFile.text, final⟩)

/-- The `buildStart` hook of `BuildAngularPlugin` in `plugins.ts`
(lines 69–76): runs `setupAngularProgram`, validates, and calls
`process.exit(1)` when the validation result is truthy and the build is not
a dev-server build.  The returned pair is the updated builder and the exit
code, if any. -/
def buildStartHook (st : AngularBuilder) (newBuilder : TsBuilder)
    (formatted : String) (isDev : Bool) :
    Except String (AngularBuilder × Option Nat) :=
  match st.setupAngularProgram newBuilder with
  | .error e => .error e
  | .ok st' =>
    match st'.validateFiles formatted with
    | .error e => .error e
    | .ok out => .ok (st', if jsTruthy out.returned && !isDev then some 1 else none)

/-- The exit decision of the `transform` hook of `BuildAngularPlugin` in
`plugins.ts` (lines 82–86): validate, then `process.exit(1)` when the
result is truthy and the build is not a dev-server build. -/
def transformHookExit (st : AngularBuilder) (formatted : String) (isDev : Bool) :
    Except String (Option Nat) :=
  match st.validateFiles formatted with
  | .error e => .error e
  | .ok out => .ok (if jsTruthy out.returned && !isDev then some 1 else none)

/-- The exit decision of the `buildStart` hook of the `BuildAngularPlugin`
variant in `part_007` (lines 108–112): its local `validateFiles` always
returns the formatted diagnostics string, and the hook exits whenever that
string is truthy — `isDev` is in scope but not consulted:

```js
const validateResult = await validateFiles();
if (validateResult) {
  process.exit(1);
}
``` -/
def buildStart007Exit (_isDev : Bool) (formatted : String) : Option Nat :=
  if formatted ≠ "" then some 1 else none

/-- The exit decision of the `transform` hook of the `BuildAngularPlugin`
variant in `part_007` (lines 122–126): exits when the diagnostics string is
truthy and the build is not a dev-server build. -/
def transform007Exit (isDev : Bool) (formatted : String) : Option Nat :=
  if formatted ≠ "" ∧ isDev = false then some 1 else none

/-- C10: `setupAngularProgram` throws an error telling the caller to run
`setupCompilerHost` exactly when the compiler host or the TypeScript host
is uninitialised, and on every builder produced by the constructor (which
itself calls `setupCompilerHost`) it succeeds — the error branch is
unreachable. -/
theorem setupAngularProgram_error_iff_and_unreachable_from_constructor :
    (∀ (st : AngularBuilder) (nb : TsBuilder),
        (∃ msg, st.setupAngularProgram nb = .error msg ∧
            jsIncludes msg "setupCompilerHost" = true)
          ↔ (st.compilerHost = none ∨ st.tsHost = none))
    ∧ (∀ (env testEnv : Environment) (path : String) (plugins : List BuilderPlugin)
        (files : List String) (origRead : String → Option String) (nb : TsBuilder),
        ∃ st', (mkAngularBuilder env testEnv path plugins files origRead).setupAngularProgram nb
          = .ok st') := by
  constructor
  · intro st nb
    rcases hc : st.compilerHost with _ | c <;> rcases ht : st.tsHost with _ | t <;>
      simp [AngularBuilder.setupAngularProgram, hc, ht] <;> decide
  · intro env testEnv path plugins files origRead nb
    exact ⟨_, rfl⟩

/-- C3: once `setupAngularProgram` has run (the Angular program and the
TypeScript builder exist), `buildFile fileId` returns no transform exactly
when `fileId` is not a TypeScript file or the builder has no source file
for it; in every other case it returns a `MagicString` over the source
text whose content is the emitted output piped through the post-transform
plugins. -/
theorem buildFile_none_iff_and_some (st : AngularBuilder) (b : TsBuilder)
    (fileId : String)
    (hprog : st.currentAngularProgram = some ())
    (hb : st.builder = some b) :
    (st.buildFile fileId = .ok none
        ↔ (isTsFile fileId = false ∨ b.getSourceFile fileId = none))
    ∧ (∀ sf, isTsFile fileId = true → b.getSourceFile fileId = some sf →
        st.buildFile fileId = .ok (some ⟨sf.text,
          applyPostPlugins (st.pluginMapping st.env Stage.postTransform) fileId
            (emitOutput (b.emitData fileId))⟩)) := by
  unfold AngularBuilder.buildFile
  rw [hprog, hb]
  constructor
  · rcases hts : isTsFile fileId with _ | _
    · simp
    · rcases hsf : b.getSourceFile fileId with _ | sf <;> simp [hsf]
  · intro sf hts hsf
    simp [hts, hsf]

/-- C5: `validateFiles` returns `undefined` — analysing nothing and logging
nothing — when no Angular program has been created; otherwise (with the
TypeScript host initialised) it analyses the program, returns the formatted
diagnostics string, and warns it to the console exactly when it is
non-empty. -/
theorem validateFiles_cases (st : AngularBuilder) (formatted : String) :
    (st.currentAngularProgram = none →
        st.validateFiles formatted = .ok ⟨none, [], false⟩)
    ∧ (st.currentAngularProgram = some () → ∀ h : TsHost, st.tsHost = some h →
        ∃ out, st.validateFiles formatted = .ok out
          ∧ out.returned = some formatted
          ∧ out.analyzed = true
          ∧ (out.logged ≠ [] ↔ formatted ≠ "")
          ∧ (out.logged = [] ∨ out.logged = [formatted])) := by
  constructor
  · intro hnone
    unfold AngularBuilder.validateFiles
    rw [hnone]
  · intro hprog h hts
    unfold AngularBuilder.validateFiles
    rw [hprog, hts]
    refine ⟨_, rfl, rfl, rfl, ?_, ?_⟩
    · by_cases hf : formatted = "" <;> simp [hf]
    · by_cases hf : formatted = "" <;> simp [hf]

/-- C2: the read-stage pipeline is a left-to-right fold — appending a
plugin post-composes it, receiving the previous output, and a falsy result
leaves the text unchanged; the overridden `readFile` installed by
`setupCompilerHost` runs exactly this pipeline over the original read; and
symmetrically `buildFile` pipes the emitted output through the
post-transform-stage pipeline before returning it. -/
theorem plugin_pipelines_in_order :
    (∀ (plugins : List BuilderPlugin) (p : BuilderPlugin) (name : String)
        (init : Option String),
        applyReadPlugins (plugins ++ [p]) name init =
          (let prev := applyReadPlugins plugins name init
           let output := p.transform name prev
           if jsTruthy output then output else prev))
    ∧ (∀ (plugins : List BuilderPlugin) (p : BuilderPlugin) (name : String)
        (init : Option String),
        jsTruthy (p.transform name (applyReadPlugins plugins name init)) = false →
          applyReadPlugins (plugins ++ [p]) name init
            = applyReadPlugins plugins name init)
    ∧ (∀ (st : AngularBuilder) (origRead : String → Option String)
        (name : String) (h : TsHost),
        (st.setupCompilerHost origRead).tsHost = some h →
          h.readFile name
            = applyReadPlugins (st.pluginMapping st.env Stage.read) name (origRead name))
    ∧ (∀ (plugins : List BuilderPlugin) (p : BuilderPlugin) (fileId : String)
        (init : String),
        applyPostPlugins (plugins ++ [p]) fileId init =
          (let prev := applyPostPlugins plugins fileId init
           let result := p.transform fileId (some prev)
           if jsTruthy result then result.getD prev else prev))
    ∧ (∀ (st : AngularBuilder) (b : TsBuilder) (fileId : String) (sf : SourceFile),
        st.currentAngularProgram = some () → st.builder = some b →
        isTsFile fileId = true → b.getSourceFile fileId = some sf →
          st.buildFile fileId = .ok (some ⟨sf.text,
            applyPostPlugins (st.pluginMapping st.env Stage.postTransform) fileId
              (emitOutput (b.emitData fileId))⟩)) := by
  refine ⟨?_, ?_, ?_, ?_, ?_⟩
  · intro plugins p name init
    simp [applyReadPlugins, List.foldl_append]
  · intro plugins p name init hfalse
    simp only [applyReadPlugins, List.foldl_append, List.foldl_cons, List.foldl_nil]
    simp only [applyReadPlugins] at hfalse
    simp [hfalse]
  · intro st origRead name h hh
    simp only [AngularBuilder.setupCompilerHost, Option.some.injEq] at hh
    rw [← hh]
  · intro plugins p fileId init
    simp [applyPostPlugins, List.foldl_append]
  · intro st b fileId sf hprog hb hts hsf
    unfold AngularBuilder.buildFile
    rw [hprog, hb]
    simp [hts, hsf]

/-- C4 counterexample: in the `part_007` variant of `BuildAngularPlugin`,
the `buildStart` hook exits the process with code 1 on a non-empty
diagnostics string even in dev-server mode (`isDev = true`), contradicting
the claim that in dev-server mode the process never exits. -/
theorem buildStart007_exits_in_dev :
    buildStart007Exit true "error TS2322: Type mismatch." = some 1 := by
  decide

/-- C4 amended: in `plugins.ts`, both hooks exit with code 1 exactly when
validation produced a non-empty diagnostics string and the build is not a
dev-server build; in the `part_007` variant the `transform` hook behaves
the same way, but its `buildStart` hook exits on any non-empty diagnostics
string regardless of mode. -/
theorem hook_exit_characterisation :
    (∀ (st : AngularBuilder) (nb : TsBuilder) (formatted : String) (isDev : Bool)
        (st' : AngularBuilder) (exitCode : Option Nat),
        buildStartHook st nb formatted isDev = .ok (st', exitCode) →
          (exitCode = some 1 ↔ (formatted ≠ "" ∧ isDev = false)))
    ∧ (∀ (st : AngularBuilder) (formatted : String) (isDev : Bool)
        (exitCode : Option Nat),
        transformHookExit st formatted isDev = .ok exitCode →
          (exitCode = some 1
            ↔ (st.currentAngularProgram = some () ∧ formatted ≠ "" ∧ isDev = false)))
    ∧ (∀ (isDev : Bool) (formatted : String),
        buildStart007Exit isDev formatted = some 1 ↔ formatted ≠ "")
    ∧ (∀ (isDev : Bool) (formatted : String),
        transform007Exit isDev formatted = some 1 ↔ (formatted ≠ "" ∧ isDev = false)) := by
  refine ⟨?_, ?_, ?_, ?_⟩
  · intro st nb formatted isDev st' exitCode h
    unfold buildStartHook AngularBuilder.setupAngularProgram at h
    rcases hc : st.compilerHost with _ | c <;> rw [hc] at h
    · simp at h
    · rcases ht : st.tsHost with _ | t <;> rw [ht] at h
      · simp at h
      · simp [AngularBuilder.validateFiles, ht] at h
        obtain ⟨-, hexit⟩ := h
        rw [← hexit]
        by_cases hf : formatted = "" <;> cases isDev <;> simp [jsTruthy, hf]
  · intro st formatted isDev exitCode h
    unfold transformHookExit AngularBuilder.validateFiles at h
    rcases hp : st.currentAngularProgram with _ | u <;> rw [hp] at h
    · simp only [Except.ok.injEq] at h
      rw [← h]
      simp [jsTruthy, hp]
    · rcases ht : st.tsHost with _ | t <;> rw [ht] at h
      · simp at h
      · simp only [Except.ok.injEq] at h
        rw [← h]
        by_cases hf : formatted = "" <;> cases isDev <;> simp [jsTruthy, hf, hp]
  · intro isDev formatted
    by_cases hf : formatted = "" <;> simp [buildStart007Exit, hf]
  · intro isDev formatted
    by_cases hf : formatted = "" <;> cases isDev <;> simp [transform007Exit, hf]

/-- C1: the mapping built by the `AngularBuilder` constructor consists,
slot by slot, of exactly the claimed contributions in input-list order:
every plugin with `apply == env`, or with `env == "test"` and
`apply == testEnv`, lands in `mapping[apply][stage]`, additionally in
`mapping["test"][stage]` when `apply == testEnv`, and no other plugin
appears in any list. -/
theorem constructor_pluginMapping_eq_spec (env testEnv : Environment)
    (plugins : List BuilderPlugin) (e : Environment) (s : Stage) :
    buildPluginMapping env testEnv plugins e s
      = pluginMappingSpec env testEnv plugins e s := by
  unfold buildPluginMapping
  rw [foldl_addPlugin_spec]
  rfl

/-- A do-nothing plugin used to instantiate the pipeline theorems. -/
def wPlugin : BuilderPlugin :=
  { name := "w", apply := .dev, stage := .postTransform, transform := fun _ code => code }

/-- A concrete TypeScript builder oracle used to instantiate the theorems. -/
def wTsBuilder : TsBuilder :=
  { getSourceFile := fun fileId =>
      if fileId = "main.ts" then some ⟨"const x = 1;"⟩ else none
    emitData := fun _ => [some "var x = 1;"] }

/-- A concrete builder state (hosts initialised, program created). -/
def wBuilderState : AngularBuilder :=
  { env := .dev
    testEnv := .dev
    tsConfigPath := "./tsconfig.json"
    rootFiles := ["main.ts"]
    pluginMapping := emptyMapping
    tsHost := some ⟨fun _ => none⟩
    compilerHost := some ()
    currentAngularProgram := some ()
    builder := some wTsBuilder }

/-- Witness for C3 at a concrete builder state and file id. -/
theorem buildFile_none_iff_and_some_witness :
    wBuilderState.buildFile "main.ts" = .ok (some ⟨"const x = 1;",
      applyPostPlugins (wBuilderState.pluginMapping wBuilderState.env Stage.postTransform)
        "main.ts" (emitOutput (wTsBuilder.emitData "main.ts"))⟩) :=
  (buildFile_none_iff_and_some wBuilderState wTsBuilder "main.ts" rfl rfl).2
    ⟨"const x = 1;"⟩ (by decide) rfl

/-- Witness for C5 at a concrete builder state and diagnostics string. -/
theorem validateFiles_cases_witness :
    ∃ out, wBuilderState.validateFiles "boom" = .ok out
      ∧ out.returned = some "boom"
      ∧ out.analyzed = true
      ∧ (out.logged ≠ [] ↔ "boom" ≠ "")
      ∧ (out.logged = [] ∨ out.logged = ["boom"]) :=
  (validateFiles_cases wBuilderState "boom").2 rfl ⟨fun _ => none⟩ rfl

/-- Witness for C2: a plugin whose transform returns a falsy value leaves
the pipeline output unchanged, at a concrete pipeline. -/
theorem plugin_pipelines_in_order_witness :
    applyReadPlugins ([] ++ [wPlugin]) "x" none = applyReadPlugins [] "x" none :=
  plugin_pipelines_in_order.2.1 [] wPlugin "x" none rfl

/-- Witness for the amended C4 at a concrete state: with non-empty
diagnostics in a non-dev build, `buildStart` exits with code 1. -/
theorem hook_exit_characterisation_witness :
    (some 1 = some 1 ↔ ("boom" ≠ "" ∧ false = false)) :=
  hook_exit_characterisation.1 wBuilderState wTsBuilder "boom" false
    { wBuilderState with currentAngularProgram := some (), builder := some wTsBuilder }
    (some 1) (by rfl)

/-- The transform of the `instrument-files` plugin (`builderPlugins.js`
lines 127–140): files rejected by the configured include/exclude filter,
and falsy inputs, pass through unchanged; accepted files are replaced by
the Babel/Istanbul instrumentation result (`babel` is the oracle for
`transformSync(...)?.code`), with a falsy result mapped to `undefined` by
`return instrumentedRes || undefined`. -/
def instrumentFilesTransform (filter : String → Bool)
    (babel : String → String → Option String)
    (fileId : String) (code : Option String) : Option String :=
  if !filter fileId || !jsTruthy code then code
  else
    let instrumentedRes := babel fileId (code.getD "")
    if jsTruthy instrumentedRes then instrumentedRes else none

/-- The `instrument-files` plugin object (`builderPlugins.js` lines
118–142): registered for the `"test"` environment at the `"read"` stage. -/
def instrumentFiles (filter : String → Bool)
    (babel : String → String → Option String) : BuilderPlugin :=
  { name := "instrument-files"
    apply := .test
    stage := .read
    transform := instrumentFilesTransform filter babel }

/-- The transform shared by `addCompiler` (`builderPlugins.js` lines
152–155) and `addCompilerPlugin` (`builderPlugins.ts` lines 375–379):
prepend the compiler import to the main entry file. -/
def addCompilerTransform (fileId : String) (code : Option String) : Option String :=
  if !jsIncludes fileId "main.ts" || !jsTruthy code then code
  else some ("import '@angular/compiler';\n" ++ code.getD "")

/-- The `add-compiler` plugin object: dev environment, post-transform stage. -/
def addCompiler : BuilderPlugin :=
  { name := "add-compiler", apply := .dev, stage := .postTransform
    transform := addCompilerTransform }

/-- The transform shared by `addPolyfills` (`builderPlugins.js` lines
167–170) and `addPolyfillsPlugin` (`builderPlugins.ts` lines 391–395):
prepend the polyfills dynamic import to the main entry file. -/
def addPolyfillsTransform (fileId : String) (code : Option String) : Option String :=
  if !jsIncludes fileId "main.ts" || !jsTruthy code then code
  else some ("import('./polyfills.ts');\n" ++ code.getD "")

/-- The `add-polyfills` plugin object: production environment,
post-transform stage. -/
def addPolyfills : BuilderPlugin :=
  { name := "add-polyfills", apply := .production, stage := .postTransform
    transform := addPolyfillsTransform }

/-- C7: the coverage-instrumentation plugin is registered for the test
environment at the read stage; it passes filtered-out files and falsy
inputs through unchanged, and replaces accepted files by the instrumented
code. -/
theorem instrumentFiles_read_hook (filter : String → Bool)
    (babel : String → String → Option String) :
    (instrumentFiles filter babel).stage = Stage.read
    ∧ (instrumentFiles filter babel).apply = Environment.test
    ∧ (∀ fileId code, (filter fileId = false ∨ jsTruthy code = false) →
        (instrumentFiles filter babel).transform fileId code = code)
    ∧ (∀ fileId code instrumented,
        filter fileId = true → code ≠ "" →
        babel fileId code = some instrumented → instrumented ≠ "" →
          (instrumentFiles filter babel).transform fileId (some code)
            = some instrumented) := by
  refine ⟨rfl, rfl, ?_, ?_⟩
  · intro fileId code h
    rcases h with h | h <;>
      simp [instrumentFiles, instrumentFilesTransform, h]
  · intro fileId code instrumented hf hc hb hi
    simp [instrumentFiles, instrumentFilesTransform, hf, hc, hb, hi, jsTruthy]

/-- Witness for C7 at a concrete filter, Babel oracle, file and input. -/
theorem instrumentFiles_read_hook_witness :
    (instrumentFiles (fun f => f = "a.ts") (fun _ c => some ("cov();" ++ c))).transform
        "a.ts" (some "let x = 1;") = some ("cov();" ++ "let x = 1;") :=
  (instrumentFiles_read_hook (fun f => f = "a.ts") (fun _ c => some ("cov();" ++ c))).2.2.2
    "a.ts" "let x = 1;" ("cov();" ++ "let x = 1;") (by decide) (by decide) rfl (by decide)

/-- C8: the compiler-import and polyfills-import plugins prepend exactly
their fixed line to files whose id contains `main.ts` when the code is
non-empty, and return every other input unchanged. -/
theorem injection_plugins_touch_only_main (fileId : String) (code : String) :
    (jsIncludes fileId "main.ts" = true → code ≠ "" →
        addCompiler.transform fileId (some code)
            = some ("import '@angular/compiler';\n" ++ code)
          ∧ addPolyfills.transform fileId (some code)
            = some ("import('./polyfills.ts');\n" ++ code))
    ∧ (jsIncludes fileId "main.ts" = false ∨ code = "" →
        addCompiler.transform fileId (some code) = some code
          ∧ addPolyfills.transform fileId (some code) = some code) := by
  constructor
  · intro hm hc
    constructor <;>
      simp [addCompiler, addPolyfills, addCompilerTransform, addPolyfillsTransform,
        hm, hc, jsTruthy]
  · intro h
    rcases h with h | h <;> constructor <;>
      simp [addCompiler, addPolyfills, addCompilerTransform, addPolyfillsTransform,
        h, jsTruthy]

/-- Witness for C8 at a concrete file id and code. -/
theorem injection_plugins_touch_only_main_witness :
    addCompiler.transform "src/main.ts" (some "boot();")
        = some ("import '@angular/compiler';\n" ++ "boot();")
      ∧ addPolyfills.transform "src/main.ts" (some "boot();")
        = some ("import('./polyfills.ts');\n" ++ "boot();") :=
  (injection_plugins_touch_only_main "src/main.ts" "boot();").1 (by decide) (by decide)

/-! ### Regex machinery for the HMR plugin and the template-URL plugin

JS regex matching is leftmost-first with greedy quantifiers and `.` not
matching newlines.  The matchers below implement exactly the regexes used
by the repository, on character lists. -/

/-- Leftmost scan: return the first position (left to right) at which
`matchAt` succeeds, like `String.prototype.match` with a non-global,
non-anchored regex. -/
def scanFor (matchAt : List Char → Option (List Char)) : List Char → Option (List Char)
  | [] => matchAt []
  | c :: rest =>
    match matchAt (c :: rest) with
    | some m => some m
    | none => scanFor matchAt rest

/-- Greedy `(.*)` followed by a single separator character satisfying
`isSep` and then a continuation `k`: consume the longest possible run of
non-newline characters such that a separator and the continuation follow,
returning everything consumed (including the separator and the
continuation's consumption). -/
def greedyCC (isSep : Char → Bool) (k : List Char → Option (List Char)) :
    List Char → Option (List Char)
  | [] => none
  | c :: rest =>
    match (if c = '\n' then none else greedyCC isSep k rest) with
    | some t => some (c :: t)
    | none => if isSep c then (k rest).map (fun t => c :: t) else none

/-- Continuation matching a literal comma (the tail of
`/selector:( )?("|')(.*)("|'),/`). -/
def commaK : List Char → Option (List Char)
  | ',' :: _ => some [',']
  | _ => none

/-- `("|')(.*)("|'),` — an opening quote, a greedy body, a closing quote
and a comma. -/
def selQuote : List Char → Option (List Char)
  | [] => none
  | c :: rest =>
    if c = '"' ∨ c = '\x27' then
      (greedyCC (fun q => q = '"' || q = '\x27') commaK rest).map (fun t => c :: t)
    else none

/-- The selector regex `/selector:( )?("|')(.*)("|'),/` anchored at the
current position, returning `match[0]`.  The optional space is greedy:
the space alternative is tried first. -/
def selRegexAt (s : List Char) : Option (List Char) :=
  if pfx "selector:".toList s then
    let rest := s.drop 9
    (match rest with
     | ' ' :: rest2 => (selQuote rest2).map (fun t => "selector:".toList ++ ' ' :: t)
     | _ => none) <|>
      (selQuote rest).map (fun t => "selector:".toList ++ t)
  else none

/-- Continuation matching a literal opening brace (the tail of the class
regex). -/
def braceK : List Char → Option (List Char)
  | '\x7b' :: _ => some ['\x7b']
  | _ => none

/-- `(implements (.*) )?\x7b` — optional implements clause then a brace;
the optional group is tried first. -/
def implPart (l : List Char) : Option (List Char) :=
  (if pfx "implements ".toList l then
    (greedyCC (fun c => c = ' ') braceK (l.drop 11)).map
      (fun t => "implements ".toList ++ t)
   else none) <|> braceK l

/-- `(extends (.*) )?(implements (.*) )?\x7b` — optional extends clause
then the implements part; the optional group is tried first. -/
def extPart (l : List Char) : Option (List Char) :=
  (if pfx "extends ".toList l then
    (greedyCC (fun c => c = ' ') implPart (l.drop 8)).map
      (fun t => "extends ".toList ++ t)
   else none) <|> implPart l

/-- The class regex
`/export class [a-zA-Z]* (extends (.*) )?(implements (.*) )?\x7b/` anchored
at the current position, returning `match[0]`. -/
def classRegexAt (s : List Char) : Option (List Char) :=
  if pfx "export class ".toList s then
    let rest := s.drop 13
    let className := rest.takeWhile (fun c => c.isAlpha)
    match rest.drop className.length with
    | ' ' :: rest3 =>
      (extPart rest3).map (fun t => "export class ".toList ++ className ++ ' ' :: t)
    | _ => none
  else none

/-- JS `String.prototype.split(sep)` on character lists. -/
def splitOnChar (sep : Char) : List Char → List (List Char)
  | [] => [[]]
  | c :: rest =>
    let r := splitOnChar sep rest
    if c = sep then [] :: r
    else
      match r with
      | h :: t => (c :: h) :: t
      | [] => [[c]]

/-- First index of `sub` in the list, if any (JS `indexOf` without the
`-1` encoding). -/
def idxOfAux (sub : List Char) : List Char → Option Nat
  | [] => if pfx sub ([] : List Char) then some 0 else none
  | c :: t =>
    if pfx sub (c :: t) then some 0 else (idxOfAux sub t).map (· + 1)

/-- JS `String.prototype.indexOf`: first index or `-1`. -/
def jsIndexOf (l sub : List Char) : Int :=
  match idxOfAux sub l with
  | some n => (n : Int)
  | none => -1

/-- JS `String.prototype.replace(pattern, repl)` with a string pattern:
replace the first occurrence only. -/
def replaceFirstL (pat repl : List Char) : List Char → List Char
  | [] => if pfx pat ([] : List Char) then repl else []
  | c :: rest =>
    if pfx pat (c :: rest) then repl ++ (c :: rest).drop pat.length
    else c :: replaceFirstL pat repl rest

/-- The selector extraction of the HMR transform (`builderPlugins.js`
lines 83–85): split `match[0]` on whichever quote character it contains
and take element 1. -/
def extractSelector (m : List Char) : List Char :=
  let parts := if m.contains '"' then splitOnChar '"' m else splitOnChar '\x27' m
  parts.getD 1 []

/-- The class-name extraction of the HMR transform (`builderPlugins.js`
lines 86–87): `match[0].substring(match[0].indexOf("class") + 6)` split on
spaces, element 0. -/
def extractClassName (m : List Char) : List Char :=
  let classIndex := jsIndexOf m "class".toList
  (splitOnChar ' ' (m.drop (classIndex + 6).toNat)).headD []

/-- The HMR footer template literal of `builderPlugins.js` (with
`${nameTemplate}` and `${selectorTemplate}` already interpolated to
`<compName>` / `<compSelector>`). -/
def hmrFooter : String :=
  "\n\n\nimport \x7b APP_BOOTSTRAP_LISTENER, createComponent \x7d from \"@angular/core\";\n\nif (import.meta.hot) \x7b\n  if (!globalThis.__componentSelectorMapping) globalThis.__componentSelectorMapping = new Map();\n  globalThis.__componentSelectorMapping.set(\"<compName>\", \"<compSelector>\");\n\n  import.meta.hot.accept((newModule) => \x7b\n    if (!(newModule && globalThis.__app)) return;\n    const currentModuleName = Object.keys(newModule)[0];\n    const updatedModule = newModule[currentModuleName];\n    const currentModuleSelector =\n      globalThis.__componentSelectorMapping.get(currentModuleName) ?? \"app-root\";\n    const currentNodes = document.querySelectorAll(currentModuleSelector);\n\n    currentNodes.forEach((node) => \x7b\n      const parentElement = node.parentElement;\n      const newElement = document.createElement(currentModuleSelector);\n      // for(const attr in node.attributes) \x7b\n      //   const currentAttr = node.attributes.item(Number(attr));\n      //   if (!currentAttr) continue;\n      //   newElement.setAttribute(currentAttr.name, currentAttr.value ?? “”);\n      // \x7d\n      parentElement?.removeChild(node);\n      parentElement?.appendChild(newElement);\n      const newInstance = createComponent(updatedModule, \x7b\n        environmentInjector: globalThis.__app!.injector,\n        hostElement: newElement as Element,\n      \x7d);\n      globalThis.__app!.attachView(newInstance.hostView);\n      globalThis.__app!.tick();\n      globalThis.__app!.components.push(newInstance);\n      const listeners = globalThis.__app!.injector.get(APP_BOOTSTRAP_LISTENER, []);\n      listeners.forEach((listener) => listener(newInstance));\n    \x7d);\n  \x7d);\n\x7d\n"

/-- The full footer with the class name and selector substituted
(`hmrFooter.replace(nameTemplate, ...).replace(selectorTemplate, ...)`). -/
def mkHmrFooter (className sel : List Char) : List Char :=
  replaceFirstL "<compSelector>".toList sel
    (replaceFirstL "<compName>".toList className hmrFooter.toList)

/-- The HMR plugin's transform hook (`builderPlugins.js` lines 75–92 /
`builderPlugins.ts` lines 277–296): pass through falsy code and
non-component files; otherwise match the selector and class regexes and —
with no null guard, a TypeError when either fails — append the footer with
the extracted class name and selector substituted. -/
def hmrTransform (fileId : String) (code : Option String) : Except String (Option String) :=
  if !jsTruthy code || !jsEndsWith fileId "component.ts" then .ok code
  else
    let c := (code.getD "").toList
    match scanFor selRegexAt c with
    | none => .error "TypeError: componentSelectorMatch is null"
    | some selM =>
      match scanFor classRegexAt c with
      | none => .error "TypeError: componentNameMatch is null"
      | some clsM =>
        .ok (some (String.mk (c ++ mkHmrFooter (extractClassName clsM) (extractSelector selM))))

/-- C9: for a component file with non-empty code, the HMR transform is
total and appends the footer (with the extracted class name and selector
substituted) exactly when both the selector regex and the class regex
match; when either fails to match, the unguarded dereference makes the
hook throw. -/
theorem hmrTransform_total_or_error (fileId code : String)
    (hend : jsEndsWith fileId "component.ts" = true)
    (hcode : code ≠ "") :
    (∀ selM clsM,
        scanFor selRegexAt code.toList = some selM →
        scanFor classRegexAt code.toList = some clsM →
          hmrTransform fileId (some code)
            = .ok (some (String.mk (code.toList
                ++ mkHmrFooter (extractClassName clsM) (extractSelector selM)))))
    ∧ ((scanFor selRegexAt code.toList = none ∨ scanFor classRegexAt code.toList = none) →
        ∃ e, hmrTransform fileId (some code) = .error e) := by
  constructor
  · intro selM clsM hsel hcls
    simp only [String.toList] at hsel hcls
    simp [hmrTransform, jsTruthy, hcode, hend, hsel, hcls]
  · intro h
    rcases h with h | h
    · refine ⟨"TypeError: componentSelectorMatch is null", ?_⟩
      simp only [String.toList] at h
      simp [hmrTransform, jsTruthy, hcode, hend, h]
    · rcases hsel : scanFor selRegexAt code.toList with _ | selM <;>
        simp only [String.toList] at hsel h
      · refine ⟨"TypeError: componentSelectorMatch is null", ?_⟩
        simp [hmrTransform, jsTruthy, hcode, hend, hsel]
      · refine ⟨"TypeError: componentNameMatch is null", ?_⟩
        simp [hmrTransform, jsTruthy, hcode, hend, hsel, h]

/-- A concrete Angular component source used to instantiate C9. -/
def wComponentSrc : String :=
  "selector: \"app-foo\",\nexport class FooComponent \x7b"

/-- Witness for C9: on a concrete component file containing a selector
property and an exported class declaration, the hook returns the code with
the substituted footer appended. -/
theorem hmrTransform_total_or_error_witness :
    hmrTransform "foo.component.ts" (some wComponentSrc)
      = .ok (some (String.mk (wComponentSrc.toList
          ++ mkHmrFooter (extractClassName "export class FooComponent \x7b".toList)
              (extractSelector "selector: \"app-foo\",".toList)))) :=
  (hmrTransform_total_or_error "foo.component.ts" wComponentSrc (by decide)
      (by decide)).1
    "selector: \"app-foo\",".toList "export class FooComponent \x7b".toList rfl rfl

/-! ### The template-URL plugin (`plugins.mjs`, default configuration)

The transform runs
`magicString.replace(/(templateUrl:)(.*)(.component.html")/, cb)` — a
non-global regex, so only the first (leftmost) match is replaced, with the
greedy `(.*)` extending group 3 to the last position on the line where a
character, `component`, a character, `html` and a double quote follow.
Inside the callback, `match.match(/(\.\/)(.*)(\.component\.html)/)`
extracts the component name (leftmost `./`, greedy up to the last
`.component.html`). -/

/-- `['c','o','m','p','o','n','e','n','t']` — the literal part of the
outer regex's third group. -/
def componentChars : List Char :=
  ['c', 'o', 'm', 'p', 'o', 'n', 'e', 'n', 't']

/-- `['h','t','m','l','"']` — the tail of the outer regex's third group
(`html` plus the closing double quote). -/
def htmlQuoteChars : List Char :=
  ['h', 't', 'm', 'l', '"']

/-- Does `l` begin with a match of `(.component.html")` with unescaped
dots, i.e. any non-newline character, `component`, any non-newline
character, `html`, `"`?  (16 characters.) -/
def outerEnd16 (l : List Char) : Bool :=
  match l with
  | c0 :: rest =>
    c0 != '\n' && pfx componentChars rest &&
      (match rest.drop 9 with
       | c10 :: rest2 => c10 != '\n' && pfx htmlQuoteChars rest2
       | [] => false)
  | [] => false

/-- Greedy search for the end of the outer match: split `l` as
`(group2, end16, after)` where `end16` starts at the *last* position
reachable without crossing a newline at which `outerEnd16` holds. -/
def lastEndSplitAux : List Char → Option (List Char × List Char × List Char)
  | [] => none
  | c :: rest =>
    match (if c = '\n' then none
           else (lastEndSplitAux rest).map (fun r => (c :: r.1, r.2.1, r.2.2))) with
    | some r => some r
    | none =>
      if outerEnd16 (c :: rest) then
        some ([], (c :: rest).take 16, (c :: rest).drop 16)
      else none

/-- Leftmost match of the outer regex
`/(templateUrl:)(.*)(.component.html")/` over the whole input: returns
`(before, match0, after)` for the first position at which `templateUrl:`
occurs with a reachable end-of-match on the same line. -/
def scanTplUrl : List Char → Option (List Char × List Char × List Char)
  | [] => none
  | c :: rest =>
    match (if pfx "templateUrl:".toList (c :: rest) then
            (lastEndSplitAux ((c :: rest).drop 12)).map
              (fun r => (([] : List Char), "templateUrl:".toList ++ r.1 ++ r.2.1, r.2.2))
           else none) with
    | some r => some r
    | none => (scanTplUrl rest).map (fun r => (c :: r.1, r.2.1, r.2.2))

/-- Greedy split at the *last* occurrence of the literal `lit` reachable
without crossing a newline: `l = body ++ lit ++ after`, returning
`(body, after)`. -/
def lastLitSplit (lit : List Char) : List Char → Option (List Char × List Char)
  | [] => none
  | c :: rest =>
    match (if c = '\n' then none
           else (lastLitSplit lit rest).map (fun r => (c :: r.1, r.2))) with
    | some r => some r
    | none =>
      if pfx lit (c :: rest) then some ([], (c :: rest).drop lit.length)
      else none

/-- Leftmost match of the inner regex `/(\.\/)(.*)(\.component\.html)/`,
returning group 2 (the component name): the first `./` from which a
`.component.html` is reachable, with a greedy body up to the last one. -/
def innerMatchName (lit : List Char) : List Char → Option (List Char)
  | [] => none
  | c :: rest =>
    match (if pfx "./".toList (c :: rest) then
            (lastLitSplit lit ((c :: rest).drop 2)).map (fun r => r.1)
           else none) with
    | some r => some r
    | none => innerMatchName lit rest

/-- The replacement callback of `ReplaceTemplateUrlPlugin.transform`
(`plugins.mjs` lines 60–86) under the default configuration
`{ inlineTemplates: true }`: extract the component name from the match
(returning the match unchanged when the inner regex fails or the name is
`my`), resolve the template path, and inline the file contents (`fsRead`
is the oracle for `fs.readFileSync`). -/
def tplCallback (fsRead : List Char → List Char) (m : List Char) : List Char :=
  match innerMatchName ".component.html".toList m with
  | none => m
  | some componentName =>
    if componentName = "my".toList then m
    else
      let componentTemplateURL :=
        if componentName = "app".toList then
          "./src/app/".toList ++ componentName ++ ".component.html".toList
        else
          "./src/app/components/".toList ++ componentName ++ "/".toList
            ++ componentName ++ ".component.html".toList
      "template: `".toList ++ fsRead componentTemplateURL ++ "`".toList

/-- `ReplaceTemplateUrlPlugin().transform(code)` with the default
configuration: replace the first outer-regex match by the callback
result. -/
def replaceTemplateUrlTransform (fsRead : List Char → List Char)
    (code : List Char) : List Char :=
  match scanTplUrl code with
  | none => code
  | some r => r.1 ++ tplCallback fsRead r.2.1 ++ r.2.2

/-- Specification-side decoder of the *claim's* pattern: does the code
contain a substring of the literal form
`templateUrl: "./<name>.component.html"` (for some, possibly empty,
`<name>`)?  Written from the claim's words, to compare the claim against
the code's looser regex. -/
def containsCanonicalTpl : List Char → Bool
  | [] => false
  | c :: rest =>
    (pfx "templateUrl: \"./".toList (c :: rest) &&
        hasSub ((c :: rest).drop 16) ".component.html\"".toList)
      || containsCanonicalTpl rest

/-- The canonical claimed occurrence `templateUrl: "./<name>.component.html"`. -/
def canonTpl (name : List Char) : List Char :=
  "templateUrl: \"./".toList ++ name ++ ".component.html\"".toList

/-- The template path resolution of the callback. -/
def resolveTplUrl (name : List Char) : List Char :=
  if name = "app".toList then
    "./src/app/".toList ++ name ++ ".component.html".toList
  else
    "./src/app/components/".toList ++ name ++ "/".toList
      ++ name ++ ".component.html".toList

theorem prefixOf_exists {l₁ l₂ : List Char} (h : pfx l₁ l₂ = true) :
    ∃ t, l₂ = l₁ ++ t := by
  induction l₁ generalizing l₂ with
  | nil => exact ⟨l₂, rfl⟩
  | cons c cs ih =>
    cases l₂ with
    | nil => simp [pfx] at h
    | cons d ds =>
      simp only [pfx, Bool.and_eq_true, beq_iff_eq] at h
      obtain ⟨t, ht⟩ := ih h.2
      exact ⟨t, by rw [ht, h.1, List.cons_append]⟩

theorem pfx_append (l₁ t : List Char) : pfx l₁ (l₁ ++ t) = true := by
  induction l₁ with
  | nil => rfl
  | cons c cs ih => simpa [pfx] using ih

theorem mem_drop_of_mem_drop_succ {α : Type} {a : α} {l : List α} {n : Nat}
    (h : a ∈ l.drop (n + 1)) : a ∈ l.drop n := by
  have h1 : l.drop (n + 1) = (l.drop n).drop 1 := by
    rw [List.drop_drop]
  rw [h1] at h
  exact List.mem_of_mem_drop h

theorem ne_newline_of_isLower {c : Char} (h : c.isLower = true) : c ≠ '\n' := by
  intro he
  subst he
  exact absurd h (by decide)

/-- A successful `outerEnd16` guarantees a double quote at offset 15 of
the current line. -/
theorem outerEnd16_quote {l : List Char} (h : outerEnd16 l = true) :
    '"' ∈ (List.takeWhile (fun c => c != '\n') l).drop 15 := by
  cases l with
  | nil => exact absurd h (by decide)
  | cons c0 rest =>
    unfold outerEnd16 at h
    simp only [Bool.and_eq_true] at h
    obtain ⟨⟨h0, h1⟩, h2⟩ := h
    obtain ⟨t, ht⟩ := prefixOf_exists h1
    subst ht
    have hd : (componentChars ++ t).drop 9 = t := rfl
    rw [hd] at h2
    cases t with
    | nil => simp at h2
    | cons c10 rest2 =>
      simp only [Bool.and_eq_true] at h2
      obtain ⟨h3, h4⟩ := h2
      obtain ⟨t3, ht3⟩ := prefixOf_exists h4
      subst ht3
      simp only [componentChars, htmlQuoteChars, List.cons_append, List.nil_append,
        List.takeWhile_cons, h0, h3]
      simp [List.takeWhile_cons]

/-- When the current line has no double quote at offset ≥ 15, the greedy
end search fails. -/
theorem lastEndSplitAux_none : ∀ {l : List Char},
    '"' ∉ (List.takeWhile (fun c => c != '\n') l).drop 15 →
    lastEndSplitAux l = none := by
  intro l
  induction l with
  | nil => intro _; rfl
  | cons c rest ih =>
    intro h
    unfold lastEndSplitAux
    by_cases hc : c = '\n'
    · subst hc
      simp [outerEnd16]
    · have hcb : (c != '\n') = true := by simp [hc]
      have hrest : '"' ∉ (List.takeWhile (fun c => c != '\n') rest).drop 15 := by
        intro hmem
        apply h
        rw [List.takeWhile_cons, if_pos hcb]
        exact mem_drop_of_mem_drop_succ (by simpa using hmem)
      rw [if_neg hc, ih hrest]
      have ho : outerEnd16 (c :: rest) = false := by
        by_contra hco
        rw [Bool.not_eq_false] at hco
        exact h (outerEnd16_quote hco)
      simp [ho]

/-- Prepending a non-newline character to a successful greedy end search
prepends it to group 2 (later matches are preferred). -/
theorem lastEndSplitAux_cons {l g e a : List Char} {c : Char} (hc : c ≠ '\n')
    (h : lastEndSplitAux l = some (g, e, a)) :
    lastEndSplitAux (c :: l) = some (c :: g, e, a) := by
  unfold lastEndSplitAux
  rw [if_neg hc, h]
  rfl

/-- Prepending a run of non-newline characters to a successful greedy end
search prepends it to group 2. -/
theorem lastEndSplitAux_prepend {l g e a : List Char} : ∀ {X : List Char},
    (∀ c ∈ X, c ≠ '\n') →
    lastEndSplitAux l = some (g, e, a) →
    lastEndSplitAux (X ++ l) = some (X ++ g, e, a) := by
  intro X
  induction X with
  | nil => intro _ h; simpa using h
  | cons c X' ih =>
    intro hX h
    have h1 := ih (fun d hd => hX d (List.mem_cons_of_mem c hd)) h
    have h2 := lastEndSplitAux_cons (hX c (List.mem_cons_self c X')) h1
    simpa using h2

/-- At the canonical end pattern `.component.html"`, with no double quote
on the first line of `post`, the greedy end search stops exactly there. -/
theorem lastEndSplitAux_canon {post : List Char}
    (hpost : '"' ∉ List.takeWhile (fun c => c != '\n') post) :
    lastEndSplitAux (".component.html\"".toList ++ post)
      = some ([], ".component.html\"".toList, post) := by
  have hnone : lastEndSplitAux ("component.html\"".toList ++ post) = none := by
    apply lastEndSplitAux_none
    intro hmem
    apply hpost
    have he : (List.takeWhile (fun c => c != '\n') ("component.html\"".toList ++ post)).drop 15
        = List.takeWhile (fun c => c != '\n') post := rfl
    rwa [he] at hmem
  have key : lastEndSplitAux (".component.html\"".toList ++ post)
      = (match (lastEndSplitAux ("component.html\"".toList ++ post)).map
            (fun r => (('.' : Char) :: r.1, r.2.1, r.2.2)) with
         | some r => some r
         | none =>
           if outerEnd16 (".component.html\"".toList ++ post) then
             some ([], (".component.html\"".toList ++ post).take 16,
               (".component.html\"".toList ++ post).drop 16)
           else none) := rfl
  rw [key, hnone]
  rfl

/-- The leftmost scan passes over a prefix containing no `templateUrl:`
occurrence. -/
theorem scanTplUrl_prepend : ∀ (pre tail : List Char),
    (∀ x y, pre = x ++ y → y ≠ [] → pfx "templateUrl:".toList (y ++ tail) = false) →
    scanTplUrl (pre ++ tail)
      = (scanTplUrl tail).map (fun r => (pre ++ r.1, r.2.1, r.2.2)) := by
  intro pre
  induction pre with
  | nil =>
    intro tail _
    cases h : scanTplUrl tail <;> simp [h]
  | cons c pre' ih =>
    intro tail hpre
    have hc : pfx "templateUrl:".toList ((c :: pre') ++ tail) = false :=
      hpre [] (c :: pre') rfl (by simp)
    have key : scanTplUrl ((c :: pre') ++ tail)
        = (match (if pfx "templateUrl:".toList ((c :: pre') ++ tail) then
              (lastEndSplitAux (((c :: pre') ++ tail).drop 12)).map
                (fun r => (([] : List Char), "templateUrl:".toList ++ r.1 ++ r.2.1, r.2.2))
            else none) with
           | some r => some r
           | none => (scanTplUrl (pre' ++ tail)).map (fun r => (c :: r.1, r.2.1, r.2.2))) := rfl
    rw [key, hc]
    rw [ih tail (fun x y hxy hy => hpre (c :: x) y (by rw [hxy]; rfl) hy)]
    cases scanTplUrl tail <;> simp

/-- At a canonical occurrence (lower-case name, no quote on `post`'s first
line) the outer regex matches exactly the occurrence. -/
theorem scanTplUrl_canon (name post : List Char)
    (hname : ∀ c ∈ name, c.isLower = true)
    (hpost : '"' ∉ List.takeWhile (fun c => c != '\n') post) :
    scanTplUrl (canonTpl name ++ post) = some ([], canonTpl name, post) := by
  have hX : ∀ c ∈ ([' ', '"', '.', '/'] ++ name), c ≠ '\n' := by
    intro c hc
    rcases List.mem_append.mp hc with h | h
    · simp only [List.mem_cons, List.not_mem_nil, or_false] at h
      rcases h with rfl | rfl | rfl | rfl <;> decide
    · exact ne_newline_of_isLower (hname c h)
  have hmid := lastEndSplitAux_prepend hX (lastEndSplitAux_canon hpost)
  have key : scanTplUrl (canonTpl name ++ post)
      = (match (lastEndSplitAux ((canonTpl name ++ post).drop 12)).map
            (fun r => (([] : List Char), "templateUrl:".toList ++ r.1 ++ r.2.1, r.2.2)) with
         | some r => some r
         | none => (scanTplUrl ((canonTpl name ++ post).drop 1)).map
              (fun r => ('t' :: r.1, r.2.1, r.2.2))) := rfl
  have hdrop : (canonTpl name ++ post).drop 12
      = [' ', '"', '.', '/'] ++ ((name ++ ".component.html\"".toList) ++ post) := rfl
  rw [key, hdrop]
  simp only [List.append_assoc] at hmid ⊢
  simp only [List.append_nil] at hmid
  rw [hmid]
  have h16 : "templateUrl:".toList ++ [' ', '"', '.', '/'] = "templateUrl: \"./".toList := by
    decide
  simp only [Option.map_some', canonTpl, List.append_assoc, Option.some.injEq,
    Prod.mk.injEq, true_and, and_true]
  rw [← List.append_assoc "templateUrl:".toList [' ', '"', '.', '/']
    (name ++ ".component.html\"".toList), h16]

/-- With a lower-case name, the greedy inner split finds exactly the final
`.component.html`. -/
theorem lastLitSplit_canonName : ∀ (name : List Char),
    (∀ c ∈ name, c.isLower = true) →
    lastLitSplit ".component.html".toList
        (name ++ (".component.html".toList ++ ['"']))
      = some (name, ['"']) := by
  intro name
  induction name with
  | nil =>
    intro _
    show lastLitSplit ".component.html".toList
        (".component.html".toList ++ ['"']) = some ([], ['"'])
    decide
  | cons c name' ih =>
    intro h
    have hc : c ≠ '\n' := ne_newline_of_isLower (h c (List.mem_cons_self c name'))
    have key : lastLitSplit ".component.html".toList
        ((c :: name') ++ (".component.html".toList ++ ['"']))
        = (match (if c = '\n' then none
              else (lastLitSplit ".component.html".toList
                  (name' ++ (".component.html".toList ++ ['"']))).map
                (fun r => (c :: r.1, r.2))) with
           | some r => some r
           | none =>
             if pfx ".component.html".toList
                 ((c :: name') ++ (".component.html".toList ++ ['"'])) then
               some ([], ((c :: name') ++ (".component.html".toList ++ ['"'])).drop 15)
             else none) := rfl
    rw [key, if_neg hc, ih (fun d hd => h d (List.mem_cons_of_mem c hd))]
    rfl

/-- The inner regex applied to a canonical match extracts exactly the
component name. -/
theorem innerMatchName_canon (name : List Char)
    (hname : ∀ c ∈ name, c.isLower = true) :
    innerMatchName ".component.html".toList (canonTpl name) = some name := by
  have key : innerMatchName ".component.html".toList (canonTpl name)
      = (match (lastLitSplit ".component.html".toList
            (name ++ (".component.html".toList ++ ['"']))).map (fun r => r.1) with
         | some r => some r
         | none => innerMatchName ".component.html".toList
            ('/' :: (name ++ ".component.html\"".toList))) := rfl
  rw [key, lastLitSplit_canonName name hname]
  rfl

/-- The callback of the template-URL plugin on a canonical match: `my` is
left alone, every other name is replaced by the inlined template read from
the resolved path. -/
theorem tplCallback_canon (fsRead : List Char → List Char) (name : List Char)
    (hname : ∀ c ∈ name, c.isLower = true) :
    tplCallback fsRead (canonTpl name)
      = if name = "my".toList then canonTpl name
        else "template: `".toList ++ fsRead (resolveTplUrl name) ++ "`".toList := by
  unfold tplCallback
  rw [innerMatchName_canon name hname]
  by_cases hmy : name = "my".toList
  · simp [hmy]
  · by_cases happ : name = "app".toList <;> simp [hmy, happ, resolveTplUrl]

/-- C6 counterexample: an input holding two canonical templateUrl
properties on one line.  The claim predicts that the first one is rewritten
to the inlined content of `./src/app/components/a/a.component.html` with
the rest untouched; the greedy regex instead swallows both properties and
resolves a garbage path, so the output is neither the input nor the
claimed rewriting. -/
theorem replaceTemplateUrl_greedy_cex :
    containsCanonicalTpl
        "templateUrl: \"./a.component.html\" templateUrl: \"./b.component.html\"".toList
      = true
    ∧ replaceTemplateUrlTransform
        (fun url => if url = "./src/app/components/a/a.component.html".toList
          then "ATPL".toList else "OTHER".toList)
        "templateUrl: \"./a.component.html\" templateUrl: \"./b.component.html\"".toList
      = "template: `OTHER`".toList
    ∧ replaceTemplateUrlTransform
        (fun url => if url = "./src/app/components/a/a.component.html".toList
          then "ATPL".toList else "OTHER".toList)
        "templateUrl: \"./a.component.html\" templateUrl: \"./b.component.html\"".toList
      ≠ "template: `ATPL` templateUrl: \"./b.component.html\"".toList := by
  refine ⟨by decide, by decide, by decide⟩

/-- C6 amended: when the code is `pre ++ templateUrl: "./<name>.component.html" ++ post`
with a lower-case name, no `templateUrl:` occurrence inside `pre`, and no
double quote on the first line of `post` (so the canonical occurrence is
the regex's whole first match), the transform inlines the template read
from `./src/app/<name>.component.html` for `app` and
`./src/app/components/<name>/<name>.component.html` otherwise, leaves the
input unchanged for the name `my`, and leaves any input without an
outer-regex match unchanged. -/
theorem replaceTemplateUrl_canonical (fsRead : List Char → List Char)
    (pre post name : List Char)
    (hname : ∀ c ∈ name, c.isLower = true)
    (hpre : ∀ x y, pre = x ++ y → y ≠ [] →
      pfx "templateUrl:".toList (y ++ (canonTpl name ++ post)) = false)
    (hpost : '"' ∉ List.takeWhile (fun c => c != '\n') post) :
    (replaceTemplateUrlTransform fsRead (pre ++ (canonTpl name ++ post))
      = if name = "my".toList then pre ++ (canonTpl name ++ post)
        else pre ++ ("template: `".toList ++ fsRead (resolveTplUrl name)
            ++ "`".toList ++ post))
    ∧ (∀ code, scanTplUrl code = none →
        replaceTemplateUrlTransform fsRead code = code) := by
  constructor
  · have hscan := scanTplUrl_prepend pre (canonTpl name ++ post) hpre
    rw [scanTplUrl_canon name post hname hpost] at hscan
    unfold replaceTemplateUrlTransform
    rw [hscan]
    simp only [Option.map_some', List.append_nil]
    rw [tplCallback_canon fsRead name hname]
    by_cases hmy : name = ['m', 'y'] <;> simp [hmy, List.append_assoc]
  · intro code h
    unfold replaceTemplateUrlTransform
    rw [h]

/-- Witness for the amended C6 at a concrete name and empty context. -/
theorem replaceTemplateUrl_canonical_witness :
    replaceTemplateUrlTransform (fun _ => "HELLO".toList)
        ([] ++ (canonTpl "foo".toList ++ []))
      = (if "foo".toList = "my".toList then [] ++ (canonTpl "foo".toList ++ [])
         else [] ++ ("template: `".toList
            ++ (fun _ => "HELLO".toList) (resolveTplUrl "foo".toList)
            ++ "`".toList ++ [])) :=
  (replaceTemplateUrl_canonical (fun _ => "HELLO".toList) [] [] "foo".toList
    (by decide)
    (fun x y hxy hy => absurd (List.append_eq_nil.mp hxy.symm).2 hy)
    (by simp)).1

end ViteAngular
